import Mathlib

/-! Vertex decoding in `lib/ui/painting/vertices.cc`

A shallow embedding of `DecodePoints`, `DecodeInts`, `Vertices::Create` and
`Vertices::init`, followed by the properties proved about them.

Conventions of the embedding.

* C++ arrays reached through a pointer are lists; every load and store is
  checked, and an access that C++ leaves undefined (index past the end, store
  through a null pointer) ends the run with a `Fault`.
* Storage handed out by the mesh builder starts unwritten: a cell is `none`
  until a store puts `some v` in it.
* `float` values are only copied, never computed with, so the scalar type is
  a parameter `F`.
* `int32_t` elements are integers; the conversions to `uint16_t` and `SkColor`
  are written out as reductions modulo `2^16` and `2^32`.
* Element counts and loop counters are natural numbers. The source counts
  with `int`; the embedding is exact for buffers of at most `INT_MAX`
  elements, on which no counter overflows, and that bound is assumed.
-/

namespace blink

/-! ## Memory -/

/-- The ways a run of the C++ code can leave defined behaviour. -/
inductive Fault where
  /-- A load `buffer[index]` with `index` not below the element count. -/
  | loadOutOfRange (index : Nat)
  /-- A store `out[index] = v` with `index` not below the size of the array. -/
  | storeOutOfRange (index : Nat)
  /-- A store `out[index] = v` through a null pointer. -/
  | storeNull (index : Nat)
  deriving DecidableEq, Repr

/-- Allocated output storage: one cell per element, `none` while unwritten. -/
abbrev Region (T : Type) := List (Option T)

/-- An output pointer `T*`: null (`none`) or the start of a region. -/
abbrev Ptr (T : Type) := Option (Region T)

/-- The store `p[i] = v`. -/
def Ptr.store {T : Type} (p : Ptr T) (i : Nat) (v : T) : Except Fault (Ptr T) :=
  match p with
  | none => .error (.storeNull i)
  | some r => if i < r.length then .ok (some (r.set i (some v))) else .error (.storeOutOfRange i)

/-- Modelled from the spec: `tonic::TypedList`, the view of a script-side typed
array (`Float32List`, `Int32List`) that the binding layer passes to native
code; its declaration is not in this file. The source reads it through
`data()`, `num_elements()` and `operator[]`, and the model keeps the three
apart: `data_` is the element pointer, null for an absent list, which then has
no elements; a present list has any number of elements, zero included. -/
structure TypedList (α : Type) where
  data_ : Option (List α)
  deriving DecidableEq, Repr

namespace TypedList

variable {α : Type}

/-- The test `list.data()`: is the element pointer non-null. -/
def data (l : TypedList α) : Bool := l.data_.isSome

/-- The call `list.num_elements()`. -/
def num_elements (l : TypedList α) : Nat :=
  match l.data_ with
  | none => 0
  | some xs => xs.length

/-- The load `list[i]`. -/
def load (l : TypedList α) (i : Nat) : Except Fault α :=
  match l.data_ with
  | none => .error (.loadOutOfRange i)
  | some xs =>
    match xs[i]? with
    | some v => .ok v
    | none => .error (.loadOutOfRange i)

/-- The elements of the list, in order; an absent list has none. -/
def elements (l : TypedList α) : List α :=
  match l.data_ with
  | none => []
  | some xs => xs

end TypedList

abbrev Float32List (F : Type) := TypedList F

abbrev Int32List := TypedList Int

/-- Every element is a value of `int32_t`. -/
def Int32List.InRange (l : Int32List) : Prop :=
  ∀ v ∈ l.elements, -2147483648 ≤ v ∧ v ≤ 2147483647

instance (l : Int32List) : Decidable l.InRange := by
  unfold Int32List.InRange
  infer_instance

/-! ## Graphics-library types -/

/-- Modelled from the spec: `SkPoint`, a pair of scalars. -/
structure SkPoint (F : Type) where
  fX : F
  fY : F
  deriving DecidableEq, Repr

def SkPoint.Make {F : Type} (x y : F) : SkPoint F := ⟨x, y⟩

/-- `SkColor` is `uint32_t`. -/
abbrev SkColor := Nat

/-- Conversion of an `int32_t` to `uint16_t`. -/
def toUInt16 (v : Int) : Nat := (v % 65536).toNat

/-- Conversion of an `int32_t` to `SkColor` (`uint32_t`). -/
def toSkColor (v : Int) : SkColor := (v % 4294967296).toNat

/-- Modelled from the spec: `SkVertices::VertexMode`, the topology mode. -/
inductive VertexMode where
  | kTriangles
  | kTriangleStrip
  | kTriangleFan
  deriving DecidableEq, Repr

/-- Modelled from the spec: the builder flag bit for texture coordinates. -/
def kHasTexCoords_BuilderFlag : Nat := 1

/-- Modelled from the spec: the builder flag bit for colors. -/
def kHasColors_BuilderFlag : Nat := 2

/-- Modelled from the spec: `SkVertices`, the mesh: its mode, its counts and
its four arrays. The optional arrays are null when the mesh has none. -/
structure SkVertices (F : Type) where
  fMode : VertexMode
  fVertexCnt : Nat
  fIndexCnt : Nat
  fPositions : Ptr (SkPoint F)
  fTexs : Ptr (SkPoint F)
  fColors : Ptr SkColor
  fIndices : Ptr Nat
  deriving DecidableEq, Repr

namespace SkVertices

variable {F : Type}

def hasTexCoords (m : SkVertices F) : Bool := m.fTexs.isSome

def hasColors (m : SkVertices F) : Bool := m.fColors.isSome

/-- Modelled from the spec: `SkVertices::Builder`, which holds the mesh under
construction. -/
structure Builder (F : Type) where
  fVertices : SkVertices F
  deriving DecidableEq, Repr

namespace Builder

/-- Modelled from the spec: the constructor
`Builder(mode, vertexCount, indexCount, builderFlags)`. It allocates
`vertexCount` positions, `indexCount` indices, and `vertexCount` texture
coordinates and colors when the matching flag bit is set; all cells start
unwritten. -/
def new (mode : VertexMode) (vertexCount indexCount : Nat) (builderFlags : Nat) : Builder F :=
  ⟨{ fMode := mode
     fVertexCnt := vertexCount
     fIndexCnt := indexCount
     fPositions := some (List.replicate vertexCount none)
     fTexs :=
       if builderFlags &&& kHasTexCoords_BuilderFlag ≠ 0 then
         some (List.replicate vertexCount none)
       else none
     fColors :=
       if builderFlags &&& kHasColors_BuilderFlag ≠ 0 then
         some (List.replicate vertexCount none)
       else none
     fIndices := some (List.replicate indexCount none) }⟩

def vertexCount (b : Builder F) : Nat := b.fVertices.fVertexCnt

def indexCount (b : Builder F) : Nat := b.fVertices.fIndexCnt

def positions (b : Builder F) : Ptr (SkPoint F) := b.fVertices.fPositions

def texCoords (b : Builder F) : Ptr (SkPoint F) := b.fVertices.fTexs

def colors (b : Builder F) : Ptr SkColor := b.fVertices.fColors

def indices (b : Builder F) : Ptr Nat := b.fVertices.fIndices

/-- The call `builder.detach()`: the finished mesh. -/
def detach (b : Builder F) : SkVertices F := b.fVertices

end Builder

end SkVertices

/-! ## The decoding loops -/

section Decode

variable {F : Type}

/-- The loop of `DecodePoints`, entered with counter `i`. -/
def DecodePoints.loop (coords : Float32List F) (i : Nat) (points : Ptr (SkPoint F)) :
    Except Fault (Ptr (SkPoint F)) :=
  if i < coords.num_elements then do
    let x ← coords.load i
    let y ← coords.load (i + 1)
    let points ← points.store (i / 2) (SkPoint.Make x y)
    DecodePoints.loop coords (i + 2) points
  else
    .ok points
termination_by coords.num_elements - i
decreasing_by omega

/-- `DecodePoints(coords, points)`; the result is the array behind `points`
after the call. -/
def DecodePoints (coords : Float32List F) (points : Ptr (SkPoint F)) :
    Except Fault (Ptr (SkPoint F)) :=
  DecodePoints.loop coords 0 points

/-- The loop of `DecodeInts<T>`, entered with counter `i`; `conv` is the
conversion from `int32_t` to `T` that the assignment applies. -/
def DecodeInts.loop {T : Type} (conv : Int → T) (ints : Int32List) (i : Nat) (out : Ptr T) :
    Except Fault (Ptr T) :=
  if i < ints.num_elements then do
    let v ← ints.load i
    let out ← out.store i (conv v)
    DecodeInts.loop conv ints (i + 1) out
  else
    .ok out
termination_by ints.num_elements - i
decreasing_by omega

/-- `DecodeInts<T>(ints, out)`. -/
def DecodeInts {T : Type} (conv : Int → T) (ints : Int32List) (out : Ptr T) :
    Except Fault (Ptr T) :=
  DecodeInts.loop conv ints 0 out

/-- The point made of the elements `2 * k` and `2 * k + 1` of `xs`, when both
exist; used to state what the loop of `DecodePoints` has written. -/
def pairAt (xs : List F) (k : Nat) : Option (SkPoint F) :=
  match xs[2 * k]?, xs[2 * k + 1]? with
  | some x, some y => some (SkPoint.Make x y)
  | _, _ => none

end Decode

/-! ## The wrapper -/

/-- The wrapper object: its one field `vertices_`, null until a mesh is
assigned. -/
structure Vertices (F : Type) where
  vertices_ : Option (SkVertices F)
  deriving DecidableEq, Repr

namespace Vertices

variable {F : Type}

/-- `Vertices::Create()`: a fresh wrapper, holding no mesh. -/
def Create : Vertices F := ⟨none⟩

/-- The flag computation that opens `Vertices::init`. -/
def init.builderFlags (texture_coordinates : Float32List F) (colors : Int32List) : Nat :=
  let builderFlags := 0
  let builderFlags :=
    if texture_coordinates.data then builderFlags ||| kHasTexCoords_BuilderFlag else builderFlags
  let builderFlags :=
    if colors.data then builderFlags ||| kHasColors_BuilderFlag else builderFlags
  builderFlags

/-- The builder that `Vertices::init` constructs. -/
def init.builder (vertex_mode : VertexMode) (positions texture_coordinates : Float32List F)
    (colors indices : Int32List) : SkVertices.Builder F :=
  SkVertices.Builder.new vertex_mode (positions.num_elements / 2) indices.num_elements
    (init.builderFlags texture_coordinates colors)

/-- `Vertices::init`: the wrapper after the call. -/
def init (self : Vertices F) (vertex_mode : VertexMode)
    (positions texture_coordinates : Float32List F) (colors indices : Int32List) :
    Except Fault (Vertices F) := do
  let builder := init.builder vertex_mode positions texture_coordinates colors indices
  let builder ←
    if positions.data then do
      let p ← DecodePoints positions builder.positions
      pure (⟨{ builder.fVertices with fPositions := p }⟩ : SkVertices.Builder F)
    else pure builder
  let builder ←
    if texture_coordinates.data then do
      let p ← DecodePoints texture_coordinates builder.texCoords
      pure (⟨{ builder.fVertices with fTexs := p }⟩ : SkVertices.Builder F)
    else pure builder
  let builder ←
    if colors.data then do
      let p ← DecodeInts toSkColor colors builder.colors
      pure (⟨{ builder.fVertices with fColors := p }⟩ : SkVertices.Builder F)
    else pure builder
  let builder ←
    if indices.data then do
      let p ← DecodeInts toUInt16 indices builder.indices
      pure (⟨{ builder.fVertices with fIndices := p }⟩ : SkVertices.Builder F)
    else pure builder
  pure { self with vertices_ := some builder.detach }

/-- The arguments of one call of `Vertices::init`. -/
structure InitArgs (F : Type) where
  vertex_mode : VertexMode
  positions : Float32List F
  texture_coordinates : Float32List F
  colors : Int32List
  indices : Int32List

/-- A sequence of `init` calls on one wrapper, in order, ending at the first
fault. -/
def initAll (self : Vertices F) : List (InitArgs F) → Except Fault (Vertices F)
  | [] => .ok self
  | a :: rest => do
    let v ← self.init a.vertex_mode a.positions a.texture_coordinates a.colors a.indices
    initAll v rest

end Vertices

/-! ## Loads and stores -/

section Access

variable {α T : Type}

theorem TypedList.load_some_of_lt (xs : List α) (i : Nat) (h : i < xs.length) :
    (TypedList.mk (some xs)).load i = .ok xs[i] := by
  simp [TypedList.load, List.getElem?_eq_getElem h]

theorem TypedList.load_some_of_le (xs : List α) (i : Nat) (h : xs.length ≤ i) :
    (TypedList.mk (some xs)).load i = .error (.loadOutOfRange i) := by
  simp [TypedList.load, List.getElem?_eq_none h]

theorem Ptr.store_some_of_lt (r : Region T) (i : Nat) (v : T) (h : i < r.length) :
    Ptr.store (some r) i v = .ok (some (r.set i (some v))) := by
  simp [Ptr.store, h]

theorem Ptr.store_some_of_le (r : Region T) (i : Nat) (v : T) (h : r.length ≤ i) :
    Ptr.store (some r) i v = .error (.storeOutOfRange i) := by
  simp [Ptr.store, Nat.not_lt.mpr h]

end Access

/-! ## The loop of `DecodePoints` -/

section PointsLoop

variable {F : Type}

theorem pairAt_exists (xs : List F) (k : Nat) (h : 2 * k + 1 < xs.length) :
    ∃ x y, xs[2 * k]? = some x ∧ xs[2 * k + 1]? = some y ∧
      pairAt xs k = some (SkPoint.Make x y) := by
  have h0 : 2 * k < xs.length := by omega
  refine ⟨xs[2 * k], xs[2 * k + 1], List.getElem?_eq_getElem h0, List.getElem?_eq_getElem h, ?_⟩
  simp [pairAt, List.getElem?_eq_getElem h, List.getElem?_eq_getElem h0]

/-- Loop invariant on an even-length buffer: entered at counter `2 * j` with
`m` pairs to go, the loop ends without a fault, has written the pairs
`j, ..., h - 1` and has left every other cell as it was. -/
theorem DecodePoints.loop_even (xs : List F) (h : Nat) (hxs : xs.length = 2 * h) :
    ∀ (m j : Nat) (r : Region (SkPoint F)), j + m = h → h ≤ r.length →
      ∃ r', DecodePoints.loop (TypedList.mk (some xs)) (2 * j) (some r) = .ok (some r') ∧
        r'.length = r.length ∧
        ∀ k, r'[k]? = if j ≤ k ∧ k < h then some (pairAt xs k) else r[k]? := by
  intro m
  induction m with
  | zero =>
    intro j r hj hr
    refine ⟨r, ?_, rfl, ?_⟩
    · rw [DecodePoints.loop]
      simp [TypedList.num_elements, hxs]
      omega
    · intro k
      have : ¬ (j ≤ k ∧ k < h) := by omega
      simp [this]
  | succ m ih =>
    intro j r hj hr
    have h0 : 2 * j < xs.length := by omega
    have h1 : 2 * j + 1 < xs.length := by omega
    have hjr : 2 * j / 2 < r.length := by omega
    obtain ⟨r', hrun, hlen, hget⟩ :=
      ih (j + 1) (r.set j (some (SkPoint.Make xs[2 * j] xs[2 * j + 1]))) (by omega)
        (by simpa using hr)
    refine ⟨r', ?_, by simpa using hlen, ?_⟩
    · rw [DecodePoints.loop]
      have hlt : 2 * j < (TypedList.mk (some xs)).num_elements := by
        simpa [TypedList.num_elements] using h0
      rw [if_pos hlt, TypedList.load_some_of_lt xs _ h0, TypedList.load_some_of_lt xs _ h1]
      simp only [bind, Except.bind]
      rw [Ptr.store_some_of_lt _ _ _ hjr]
      simp only []
      have e : 2 * j / 2 = j := by omega
      rw [e]
      exact hrun
    · intro k
      rw [hget k]
      by_cases hk : k = j
      · subst hk
        have hkh : k < h := by omega
        have hkr : k < r.length := by omega
        have : ¬ (k + 1 ≤ k ∧ k < h) := by omega
        simp [this, hkh, hkr, pairAt, List.getElem?_eq_getElem h0, List.getElem?_eq_getElem h1]
      · have hne : j ≠ k := fun e => hk e.symm
        rw [List.getElem?_set_ne hne]
        by_cases hc : j ≤ k ∧ k < h
        · have : j + 1 ≤ k ∧ k < h := by omega
          simp [this, hc]
        · have : ¬ (j + 1 ≤ k ∧ k < h) := by omega
          simp [this, hc]

/-- On an odd-length buffer the loop reaches the unpaired last element and
loads the element after it: entered at counter `2 * j`, it ends with that
load fault. -/
theorem DecodePoints.loop_odd (xs : List F) (h : Nat) (hxs : xs.length = 2 * h + 1) :
    ∀ (m j : Nat) (r : Region (SkPoint F)), j + m = h → h ≤ r.length →
      DecodePoints.loop (TypedList.mk (some xs)) (2 * j) (some r)
        = .error (.loadOutOfRange (2 * h + 1)) := by
  intro m
  induction m with
  | zero =>
    intro j r hj hr
    have hj' : j = h := by omega
    subst hj'
    have h0 : 2 * j < xs.length := by omega
    have h1 : xs.length ≤ 2 * j + 1 := by omega
    rw [DecodePoints.loop]
    have hlt : 2 * j < (TypedList.mk (some xs)).num_elements := by
      simpa [TypedList.num_elements] using h0
    rw [if_pos hlt, TypedList.load_some_of_lt xs _ h0, TypedList.load_some_of_le xs _ h1]
    simp [bind, Except.bind]
  | succ m ih =>
    intro j r hj hr
    have h0 : 2 * j < xs.length := by omega
    have h1 : 2 * j + 1 < xs.length := by omega
    have hjr : 2 * j / 2 < r.length := by omega
    rw [DecodePoints.loop]
    have hlt : 2 * j < (TypedList.mk (some xs)).num_elements := by
      simpa [TypedList.num_elements] using h0
    rw [if_pos hlt, TypedList.load_some_of_lt xs _ h0, TypedList.load_some_of_lt xs _ h1]
    simp only [bind, Except.bind]
    rw [Ptr.store_some_of_lt _ _ _ hjr]
    simp only []
    exact ih (j + 1) _ (by omega) (by simpa using hr)

end PointsLoop

/-! ## The loop of `DecodeInts` -/

section IntsLoop

variable {T : Type}

/-- Loop invariant: entered at counter `j` with `m` elements to go and a
destination of at least as many cells as the buffer has elements, the loop
ends without a fault, has written the converted elements `j, ...` and has left
every other cell as it was. -/
theorem DecodeInts.loop_spec (conv : Int → T) (xs : List Int) :
    ∀ (m j : Nat) (r : Region T), j + m = xs.length → xs.length ≤ r.length →
      ∃ r', DecodeInts.loop conv (TypedList.mk (some xs)) j (some r) = .ok (some r') ∧
        r'.length = r.length ∧
        ∀ k, r'[k]? =
          if j ≤ k ∧ k < xs.length then (xs[k]?).map (fun v => some (conv v)) else r[k]? := by
  intro m
  induction m with
  | zero =>
    intro j r hj hr
    refine ⟨r, ?_, rfl, ?_⟩
    · rw [DecodeInts.loop]
      simp [TypedList.num_elements]
      omega
    · intro k
      have : ¬ (j ≤ k ∧ k < xs.length) := by omega
      simp [this]
  | succ m ih =>
    intro j r hj hr
    have h0 : j < xs.length := by omega
    have hjr : j < r.length := by omega
    obtain ⟨r', hrun, hlen, hget⟩ :=
      ih (j + 1) (r.set j (some (conv xs[j]))) (by omega) (by simpa using hr)
    refine ⟨r', ?_, by simpa using hlen, ?_⟩
    · rw [DecodeInts.loop]
      have hlt : j < (TypedList.mk (some xs)).num_elements := by
        simpa [TypedList.num_elements] using h0
      rw [if_pos hlt, TypedList.load_some_of_lt xs _ h0]
      simp only [bind, Except.bind]
      rw [Ptr.store_some_of_lt _ _ _ hjr]
      simp only []
      exact hrun
    · intro k
      rw [hget k]
      by_cases hk : k = j
      · subst hk
        have : ¬ (k + 1 ≤ k ∧ k < xs.length) := by omega
        simp [this, h0, hjr, List.getElem?_eq_getElem h0]
      · have hne : j ≠ k := fun e => hk e.symm
        rw [List.getElem?_set_ne hne]
        by_cases hc : j ≤ k ∧ k < xs.length
        · have : j + 1 ≤ k ∧ k < xs.length := by omega
          simp [this, hc]
        · have : ¬ (j + 1 ≤ k ∧ k < xs.length) := by omega
          simp [this, hc]

/-- A destination with fewer cells than the buffer has elements: the loop
stores past its end. -/
theorem DecodeInts.loop_overflow (conv : Int → T) (xs : List Int) :
    ∀ (m j : Nat) (r : Region T), j + m = r.length → r.length < xs.length →
      DecodeInts.loop conv (TypedList.mk (some xs)) j (some r)
        = .error (.storeOutOfRange r.length) := by
  intro m
  induction m with
  | zero =>
    intro j r hj hr
    have hj' : j = r.length := by omega
    have h0 : j < xs.length := by omega
    rw [DecodeInts.loop]
    have hlt : j < (TypedList.mk (some xs)).num_elements := by
      simpa [TypedList.num_elements] using h0
    rw [if_pos hlt, TypedList.load_some_of_lt xs _ h0]
    simp only [bind, Except.bind]
    rw [Ptr.store_some_of_le _ _ _ (by omega), hj']
  | succ m ih =>
    intro j r hj hr
    have h0 : j < xs.length := by omega
    have hjr : j < r.length := by omega
    rw [DecodeInts.loop]
    have hlt : j < (TypedList.mk (some xs)).num_elements := by
      simpa [TypedList.num_elements] using h0
    rw [if_pos hlt, TypedList.load_some_of_lt xs _ h0]
    simp only [bind, Except.bind]
    rw [Ptr.store_some_of_lt _ _ _ hjr]
    simp only []
    have := ih (j + 1) (r.set j (some (conv xs[j]))) (by simpa using (by omega : j + 1 + m = r.length))
      (by simpa using hr)
    simpa using this

end IntsLoop

/-! ## The two decoders on whole buffers -/

section Whole

variable {F T : Type}

/-- `DecodePoints` on a buffer of even length and a destination with room for
its pairs. -/
theorem DecodePoints_spec (l : Float32List F) (r : Region (SkPoint F))
    (hl : l.num_elements % 2 = 0) (hr : l.num_elements / 2 ≤ r.length) :
    ∃ r', DecodePoints l (some r) = .ok (some r') ∧ r'.length = r.length ∧
      ∀ k, r'[k]? = if k < l.num_elements / 2 then some (pairAt l.elements k) else r[k]? := by
  rcases l with ⟨_ | xs⟩
  · refine ⟨r, ?_, rfl, ?_⟩
    · rw [DecodePoints, DecodePoints.loop]
      simp [TypedList.num_elements]
    · intro k
      simp [TypedList.num_elements]
  · have hxs : xs.length = 2 * (xs.length / 2) := by
      have : xs.length % 2 = 0 := by simpa [TypedList.num_elements] using hl
      omega
    obtain ⟨r', hrun, hlen, hget⟩ :=
      DecodePoints.loop_even xs (xs.length / 2) hxs (xs.length / 2) 0 r (by omega)
        (by simpa [TypedList.num_elements] using hr)
    refine ⟨r', by simpa [DecodePoints] using hrun, hlen, ?_⟩
    intro k
    simpa [TypedList.num_elements, TypedList.elements] using hget k

/-- `DecodePoints` on a buffer of odd length `n`: the last iteration loads
index `n`. -/
theorem DecodePoints_odd (l : Float32List F) (r : Region (SkPoint F))
    (hl : l.num_elements % 2 = 1) (hr : l.num_elements / 2 ≤ r.length) :
    DecodePoints l (some r) = .error (.loadOutOfRange l.num_elements) := by
  rcases l with ⟨_ | xs⟩
  · simp [TypedList.num_elements] at hl
  · have hl' : xs.length % 2 = 1 := by simpa [TypedList.num_elements] using hl
    have hxs : xs.length = 2 * (xs.length / 2) + 1 := by omega
    have := DecodePoints.loop_odd xs (xs.length / 2) hxs (xs.length / 2) 0 r (by omega)
      (by simpa [TypedList.num_elements] using hr)
    rw [DecodePoints]
    simp only [TypedList.num_elements]
    rw [← hxs] at this
    simpa using this

/-- `DecodeInts` on a destination with room for every element. -/
theorem DecodeInts_spec (conv : Int → T) (l : Int32List) (r : Region T)
    (hr : l.num_elements ≤ r.length) :
    ∃ r', DecodeInts conv l (some r) = .ok (some r') ∧ r'.length = r.length ∧
      ∀ k, r'[k]? =
        if k < l.num_elements then (l.elements[k]?).map (fun v => some (conv v)) else r[k]? := by
  rcases l with ⟨_ | xs⟩
  · refine ⟨r, ?_, rfl, ?_⟩
    · rw [DecodeInts, DecodeInts.loop]
      simp [TypedList.num_elements]
    · intro k
      simp [TypedList.num_elements]
  · obtain ⟨r', hrun, hlen, hget⟩ :=
      DecodeInts.loop_spec conv xs xs.length 0 r (by omega)
        (by simpa [TypedList.num_elements] using hr)
    refine ⟨r', by simpa [DecodeInts] using hrun, hlen, ?_⟩
    intro k
    simpa [TypedList.num_elements, TypedList.elements] using hget k

end Whole

/-! ## `Vertices::init` on well-sized buffers -/

section Init

variable {F : Type}

theorem DecodePoints_absent (p : Ptr (SkPoint F)) :
    DecodePoints (TypedList.mk none) p = .ok p := by
  rw [DecodePoints, DecodePoints.loop]
  simp [TypedList.num_elements]

theorem DecodeInts_absent {T : Type} (conv : Int → T) (p : Ptr T) :
    DecodeInts conv (TypedList.mk none) p = .ok p := by
  rw [DecodeInts, DecodeInts.loop]
  simp [TypedList.num_elements]

theorem Vertices.init.builderFlags_tex (tex : Float32List F) (colors : Int32List) :
    (Vertices.init.builderFlags tex colors &&& kHasTexCoords_BuilderFlag ≠ 0) ↔ tex.data = true := by
  cases ht : tex.data <;> cases hc : colors.data <;>
    simp [Vertices.init.builderFlags, ht, hc, kHasTexCoords_BuilderFlag, kHasColors_BuilderFlag]

theorem Vertices.init.builderFlags_colors (tex : Float32List F) (colors : Int32List) :
    (Vertices.init.builderFlags tex colors &&& kHasColors_BuilderFlag ≠ 0) ↔ colors.data = true := by
  cases ht : tex.data <;> cases hc : colors.data <;>
    simp [Vertices.init.builderFlags, ht, hc, kHasTexCoords_BuilderFlag, kHasColors_BuilderFlag]

/-- The outcome of `Vertices::init` on buffers that fit: positions of even
length, texture coordinates of even length no longer than the positions, no
more colors than vertices. The call ends without a fault and the wrapper holds
the mesh described. -/
theorem Vertices.init_ok (self : Vertices F) (mode : VertexMode)
    (positions tex : Float32List F) (colors indices : Int32List)
    (hp : positions.num_elements % 2 = 0)
    (ht : tex.num_elements % 2 = 0) (htp : tex.num_elements ≤ positions.num_elements)
    (hc : colors.num_elements ≤ positions.num_elements / 2) :
    ∃ (P : Region (SkPoint F)) (T : Ptr (SkPoint F)) (C : Ptr SkColor) (I : Region Nat),
      Vertices.init self mode positions tex colors indices
        = .ok ⟨some ⟨mode, positions.num_elements / 2, indices.num_elements,
            some P, T, C, some I⟩⟩ ∧
      P.length = positions.num_elements / 2 ∧
      (∀ k, P[k]? =
        if k < positions.num_elements / 2 then some (pairAt positions.elements k) else none) ∧
      (tex.data = false → T = none) ∧
      (tex.data = true → ∃ Tr, T = some Tr ∧ Tr.length = positions.num_elements / 2 ∧
        ∀ k, Tr[k]? =
          if k < tex.num_elements / 2 then some (pairAt tex.elements k)
          else if k < positions.num_elements / 2 then some none else none) ∧
      (colors.data = false → C = none) ∧
      (colors.data = true → ∃ Cr, C = some Cr ∧ Cr.length = positions.num_elements / 2 ∧
        ∀ k, Cr[k]? =
          if k < colors.num_elements then (colors.elements[k]?).map (fun v => some (toSkColor v))
          else if k < positions.num_elements / 2 then some none else none) ∧
      I.length = indices.num_elements ∧
      ∀ k : Nat, I[k]? = (indices.elements[k]?).map (fun v => some (toUInt16 v)) := by
  obtain ⟨P, hP, hPlen, hPget⟩ :=
    DecodePoints_spec positions (List.replicate (positions.num_elements / 2) none) hp (by simp)
  obtain ⟨Tr, hT, hTlen, hTget⟩ :=
    DecodePoints_spec tex (List.replicate (positions.num_elements / 2) none) ht
      (by simp; omega)
  obtain ⟨Cr, hC, hClen, hCget⟩ :=
    DecodeInts_spec toSkColor colors (List.replicate (positions.num_elements / 2) none)
      (by simpa using hc)
  obtain ⟨I, hI, hIlen, hIget⟩ :=
    DecodeInts_spec toUInt16 indices (List.replicate indices.num_elements none) (by simp)
  have hflagT := Vertices.init.builderFlags_tex tex colors
  have hflagC := Vertices.init.builderFlags_colors tex colors
  refine ⟨P, if tex.data then some Tr else none, if colors.data then some Cr else none, I,
    ?_, by simpa using hPlen, ?_, ?_, ?_, ?_, ?_, by simpa using hIlen, ?_⟩
  · simp only [Vertices.init, Vertices.init.builder, SkVertices.Builder.new,
      SkVertices.Builder.positions, SkVertices.Builder.texCoords, SkVertices.Builder.colors,
      SkVertices.Builder.indices, SkVertices.Builder.detach, hflagT, hflagC]
    rcases positions with ⟨_ | ps⟩ <;> rcases tex with ⟨_ | ts⟩ <;>
      rcases colors with ⟨_ | cs⟩ <;> rcases indices with ⟨_ | is⟩ <;>
      simp_all [TypedList.data, bind, Except.bind, pure, Except.pure, DecodePoints_absent,
        DecodeInts_absent, TypedList.num_elements]
  · intro k
    rw [hPget k]
    by_cases hk : k < positions.num_elements / 2 <;> simp [hk, List.getElem?_replicate]
  · intro h
    simp [h]
  · intro h
    refine ⟨Tr, by simp [h], by simpa using hTlen, ?_⟩
    intro k
    rw [hTget k]
    simp only [List.getElem?_replicate]
  · intro h
    simp [h]
  · intro h
    refine ⟨Cr, by simp [h], by simpa using hClen, ?_⟩
    intro k
    rw [hCget k]
    simp only [List.getElem?_replicate]
  · intro k
    rw [hIget k]
    by_cases hk : k < indices.num_elements
    · simp [hk]
    · have : indices.elements.length ≤ k := by
        rcases indices with ⟨_ | xs⟩ <;> simp_all [TypedList.num_elements, TypedList.elements]
      simp [hk, List.getElem?_eq_none this, List.getElem?_replicate]

end Init

/-! ## Properties of the decoders -/

section Claims

variable {F : Type}

theorem TypedList.length_elements {α : Type} (l : TypedList α) :
    l.elements.length = l.num_elements := by
  rcases l with ⟨_ | xs⟩ <;> rfl

/-- Claim C1. On a coordinate buffer of even length, and a destination array
with room for its pairs, `DecodePoints` ends without a fault; the point at
index `k` is `(coords[2k], coords[2k+1])` for every pair of the buffer, in
input order; exactly the first `length / 2` cells are written, the other cells
of the destination and its size are as before. -/
theorem DecodePoints_pairs (coords : Float32List F) (r : Region (SkPoint F))
    (heven : coords.num_elements % 2 = 0) (hroom : coords.num_elements / 2 ≤ r.length) :
    ∃ r', DecodePoints coords (some r) = .ok (some r') ∧
      r'.length = r.length ∧
      (∀ k, k < coords.num_elements / 2 → ∃ x y,
        coords.elements[2 * k]? = some x ∧ coords.elements[2 * k + 1]? = some y ∧
        r'[k]? = some (some (SkPoint.Make x y))) ∧
      (∀ k, coords.num_elements / 2 ≤ k → r'[k]? = r[k]?) := by
  obtain ⟨r', hrun, hlen, hget⟩ := DecodePoints_spec coords r heven hroom
  refine ⟨r', hrun, hlen, ?_, ?_⟩
  · intro k hk
    have hlen' := coords.length_elements
    obtain ⟨x, y, hx, hy, hxy⟩ := pairAt_exists coords.elements k (by omega)
    exact ⟨x, y, hx, hy, by rw [hget k, if_pos hk, hxy]⟩
  · intro k hk
    rw [hget k, if_neg (by omega)]

/-- The positions `[0,0, 1,0, 0,1]` decode to `(0,0), (1,0), (0,1)`. -/
theorem DecodePoints_pairs_witness :
    (TypedList.mk (some [(0 : Int), 0, 1, 0, 0, 1])).num_elements % 2 = 0 ∧
    (TypedList.mk (some [(0 : Int), 0, 1, 0, 0, 1])).num_elements / 2
      ≤ [(none : Option (SkPoint Int)), none, none].length ∧
    (∃ r', DecodePoints (TypedList.mk (some [(0 : Int), 0, 1, 0, 0, 1])) (some [none, none, none])
        = .ok (some r') ∧
      r'.length = [(none : Option (SkPoint Int)), none, none].length ∧
      (∀ k, k < (TypedList.mk (some [(0 : Int), 0, 1, 0, 0, 1])).num_elements / 2 → ∃ x y,
        (TypedList.mk (some [(0 : Int), 0, 1, 0, 0, 1])).elements[2 * k]? = some x ∧
        (TypedList.mk (some [(0 : Int), 0, 1, 0, 0, 1])).elements[2 * k + 1]? = some y ∧
        r'[k]? = some (some (SkPoint.Make x y))) ∧
      (∀ k, (TypedList.mk (some [(0 : Int), 0, 1, 0, 0, 1])).num_elements / 2 ≤ k →
        r'[k]? = [(none : Option (SkPoint Int)), none, none][k]?)) ∧
    DecodePoints (TypedList.mk (some [(0 : Int), 0, 1, 0, 0, 1])) (some [none, none, none])
      = .ok (some [some ⟨0, 0⟩, some ⟨1, 0⟩, some ⟨0, 1⟩]) :=
  ⟨by decide, by decide,
    DecodePoints_pairs (TypedList.mk (some [(0 : Int), 0, 1, 0, 0, 1])) [none, none, none]
      (by decide) (by decide),
    by simp [DecodePoints, DecodePoints.loop, TypedList.num_elements, TypedList.load, Ptr.store,
      SkPoint.Make, bind, Except.bind]⟩

/-- Claim C2. For positions of even length, the builder that `Vertices::init`
constructs is sized with `positions.length / 2` vertices and hands out a
positions array of that many cells, whatever the texture coordinates, colors,
indices and mode are; and when the other buffers fit, the mesh that the call
leaves in the wrapper has that vertex count and that many positions. -/
theorem init_vertex_count (self : Vertices F) (mode : VertexMode)
    (positions tex : Float32List F) (colors indices : Int32List)
    (heven : positions.num_elements % 2 = 0) :
    (Vertices.init.builder mode positions tex colors indices).vertexCount
      = positions.num_elements / 2 ∧
    (Vertices.init.builder mode positions tex colors indices).positions
      = some (List.replicate (positions.num_elements / 2) none) ∧
    (tex.num_elements % 2 = 0 → tex.num_elements ≤ positions.num_elements →
      colors.num_elements ≤ positions.num_elements / 2 →
      ∃ m P, Vertices.init self mode positions tex colors indices = .ok ⟨some m⟩ ∧
        m.fVertexCnt = positions.num_elements / 2 ∧
        m.fPositions = some P ∧ P.length = positions.num_elements / 2) := by
  refine ⟨rfl, rfl, ?_⟩
  intro ht htp hc
  obtain ⟨P, T, C, I, hrun, hPlen, -⟩ :=
    Vertices.init_ok self mode positions tex colors indices heven ht htp hc
  exact ⟨_, P, hrun, rfl, rfl, hPlen⟩

/-- Six coordinates size the builder with three vertices, with or without
indices, and the finished mesh has three vertices. -/
theorem init_vertex_count_witness :
    (TypedList.mk (some [(0 : Int), 0, 1, 0, 0, 1])).num_elements % 2 = 0 ∧
    (Vertices.init.builder VertexMode.kTriangleStrip
      (TypedList.mk (some [(0 : Int), 0, 1, 0, 0, 1])) (TypedList.mk none) (TypedList.mk none)
      (TypedList.mk (some [0, 1, 2]))).vertexCount = 3 ∧
    ∃ m P, Vertices.init Vertices.Create VertexMode.kTriangleStrip
        (TypedList.mk (some [(0 : Int), 0, 1, 0, 0, 1])) (TypedList.mk none) (TypedList.mk none)
        (TypedList.mk (some [0, 1, 2])) = .ok ⟨some m⟩ ∧
      m.fVertexCnt = 3 ∧ m.fPositions = some P ∧ P.length = 3 :=
  ⟨by decide,
    (init_vertex_count Vertices.Create VertexMode.kTriangleStrip
      (TypedList.mk (some [(0 : Int), 0, 1, 0, 0, 1])) (TypedList.mk none) (TypedList.mk none)
      (TypedList.mk (some [0, 1, 2])) (by decide)).1,
    (init_vertex_count Vertices.Create VertexMode.kTriangleStrip
      (TypedList.mk (some [(0 : Int), 0, 1, 0, 0, 1])) (TypedList.mk none) (TypedList.mk none)
      (TypedList.mk (some [0, 1, 2])) (by decide)).2.2 (by decide) (by decide) (by decide)⟩

/-- Claim C3. When the buffers fit and every element of the index buffer lies
in `0..65535`, `Vertices::init` builds a mesh whose index count is the length
of the index buffer (`0` for an absent buffer) and whose index at position `k`
equals `indices[k]`, for every `k`, in input order. -/
theorem init_indices (self : Vertices F) (mode : VertexMode)
    (positions tex : Float32List F) (colors indices : Int32List)
    (hp : positions.num_elements % 2 = 0)
    (ht : tex.num_elements % 2 = 0) (htp : tex.num_elements ≤ positions.num_elements)
    (hc : colors.num_elements ≤ positions.num_elements / 2)
    (hrange : ∀ v ∈ indices.elements, 0 ≤ v ∧ v ≤ 65535) :
    ∃ m I, Vertices.init self mode positions tex colors indices = .ok ⟨some m⟩ ∧
      m.fIndexCnt = indices.num_elements ∧
      (indices.data = false → m.fIndexCnt = 0) ∧
      m.fIndices = some I ∧ I.length = indices.num_elements ∧
      ∀ (k : Nat) (v : Int), indices.elements[k]? = some v →
        ∃ u : Nat, I[k]? = some (some u) ∧ (u : Int) = v := by
  obtain ⟨P, T, C, I, hrun, -, -, -, -, -, -, hIlen, hIget⟩ :=
    Vertices.init_ok self mode positions tex colors indices hp ht htp hc
  refine ⟨_, I, hrun, rfl, ?_, rfl, hIlen, ?_⟩
  · intro h
    rcases indices with ⟨_ | xs⟩
    · rfl
    · simp [TypedList.data] at h
  · intro k v hv
    have hmem : v ∈ indices.elements := List.getElem?_mem hv
    obtain ⟨h0, h1⟩ := hrange v hmem
    refine ⟨toUInt16 v, ?_, ?_⟩
    · rw [hIget k, hv]
      rfl
    · unfold toUInt16
      rw [Int.toNat_of_nonneg (Int.emod_nonneg _ (by decide))]
      exact Int.emod_eq_of_lt h0 (by omega)

/-- The indices `[0,1,2]` over three vertices give index count `3` and the
indices `0, 1, 2`. -/
theorem init_indices_witness :
    ((TypedList.mk (some [(0 : Int), 0, 1, 0, 0, 1])).num_elements % 2 = 0 ∧
      (∀ v ∈ (TypedList.mk (some [(0 : Int), 1, 2])).elements, 0 ≤ v ∧ v ≤ 65535)) ∧
    (∃ m I, Vertices.init Vertices.Create VertexMode.kTriangles
        (TypedList.mk (some [(0 : Int), 0, 1, 0, 0, 1])) (TypedList.mk none) (TypedList.mk none)
        (TypedList.mk (some [0, 1, 2])) = .ok ⟨some m⟩ ∧
      m.fIndexCnt = (TypedList.mk (some [(0 : Int), 1, 2])).num_elements ∧
      ((TypedList.mk (some [(0 : Int), 1, 2])).data = false → m.fIndexCnt = 0) ∧
      m.fIndices = some I ∧ I.length = (TypedList.mk (some [(0 : Int), 1, 2])).num_elements ∧
      ∀ (k : Nat) (v : Int), (TypedList.mk (some [(0 : Int), 1, 2])).elements[k]? = some v →
        ∃ u : Nat, I[k]? = some (some u) ∧ (u : Int) = v) ∧
    Vertices.init Vertices.Create VertexMode.kTriangles
        (TypedList.mk (some [(0 : Int), 0, 1, 0, 0, 1])) (TypedList.mk none) (TypedList.mk none)
        (TypedList.mk (some [0, 1, 2]))
      = .ok ⟨some ⟨VertexMode.kTriangles, 3, 3,
          some [some ⟨0, 0⟩, some ⟨1, 0⟩, some ⟨0, 1⟩], none, none,
          some [some 0, some 1, some 2]⟩⟩ :=
  ⟨⟨by decide, by decide⟩,
    init_indices Vertices.Create VertexMode.kTriangles
      (TypedList.mk (some [(0 : Int), 0, 1, 0, 0, 1])) (TypedList.mk none) (TypedList.mk none)
      (TypedList.mk (some [0, 1, 2])) (by decide) (by decide) (by decide) (by decide) (by decide),
    by
      simp [Vertices.init, Vertices.init.builder, Vertices.init.builderFlags,
        SkVertices.Builder.new, SkVertices.Builder.positions, SkVertices.Builder.indices,
        SkVertices.Builder.detach, Vertices.Create, DecodePoints, DecodePoints.loop, DecodeInts,
        DecodeInts.loop, TypedList.data, TypedList.num_elements, TypedList.load, Ptr.store,
        SkPoint.Make, toUInt16, bind, Except.bind, pure, Except.pure, List.replicate]⟩

theorem toUInt16_cast (v : Int) : ((toUInt16 v : Nat) : Int) = v % 65536 := by
  unfold toUInt16
  exact Int.toNat_of_nonneg (Int.emod_nonneg _ (by decide))

theorem toSkColor_cast (v : Int) : ((toSkColor v : Nat) : Int) = v % 4294967296 := by
  unfold toSkColor
  exact Int.toNat_of_nonneg (Int.emod_nonneg _ (by decide))

/-- Claim C4. `DecodeInts<uint16_t>` rejects no value: on any index buffer and a
destination with room for it, the call ends without a fault and the cell at
index `k` holds `indices[k]` narrowed to sixteen bits, that is
`indices[k] mod 65536`, a value in `0..65535`. In particular `65536` narrows to
`0` and `-1` to `65535`. -/
theorem DecodeInts_uint16_narrows (indices : Int32List) (r : Region Nat)
    (hroom : indices.num_elements ≤ r.length) :
    ∃ r', DecodeInts toUInt16 indices (some r) = .ok (some r') ∧
      r'.length = r.length ∧
      (∀ (k : Nat) (v : Int), indices.elements[k]? = some v →
        r'[k]? = some (some (toUInt16 v)) ∧
        ((toUInt16 v : Nat) : Int) = v % 65536 ∧ toUInt16 v ≤ 65535) ∧
      toUInt16 65536 = 0 ∧ toUInt16 (-1) = 65535 := by
  obtain ⟨r', hrun, hlen, hget⟩ := DecodeInts_spec toUInt16 indices r hroom
  refine ⟨r', hrun, hlen, ?_, by decide, by decide⟩
  intro k v hv
  have hk : k < indices.num_elements := by
    rw [← indices.length_elements]
    exact (List.getElem?_eq_some.mp hv).1
  refine ⟨?_, toUInt16_cast v, ?_⟩
  · rw [hget k, if_pos hk, hv]
    rfl
  · have := toUInt16_cast v
    omega

/-- The index buffer `[65536, -1, 70000]` is stored as `0, 65535, 4464`. -/
theorem DecodeInts_uint16_narrows_witness :
    (TypedList.mk (some [(65536 : Int), -1, 70000])).num_elements
      ≤ [(none : Option Nat), none, none].length ∧
    (∃ r', DecodeInts toUInt16 (TypedList.mk (some [(65536 : Int), -1, 70000]))
        (some [none, none, none]) = .ok (some r') ∧
      r'.length = [(none : Option Nat), none, none].length ∧
      (∀ (k : Nat) (v : Int),
        (TypedList.mk (some [(65536 : Int), -1, 70000])).elements[k]? = some v →
        r'[k]? = some (some (toUInt16 v)) ∧
        ((toUInt16 v : Nat) : Int) = v % 65536 ∧ toUInt16 v ≤ 65535) ∧
      toUInt16 65536 = 0 ∧ toUInt16 (-1) = 65535) ∧
    DecodeInts toUInt16 (TypedList.mk (some [(65536 : Int), -1, 70000])) (some [none, none, none])
      = .ok (some [some 0, some 65535, some 4464]) :=
  ⟨by decide,
    DecodeInts_uint16_narrows (TypedList.mk (some [(65536 : Int), -1, 70000])) [none, none, none]
      (by decide),
    by
      simp [DecodeInts, DecodeInts.loop, TypedList.num_elements, TypedList.load, Ptr.store,
        bind, Except.bind]
      decide⟩

/-- Claim C7. On a color buffer of `int32_t` values and a destination with room
for it, `DecodeInts<SkColor>` ends without a fault and the color at index `k`
is the 32-bit pattern of `colors[k]` read as unsigned: `colors[k] mod 2^32`,
which is `colors[k]` itself when it is non-negative and `colors[k] + 2^32`
when it is negative. Distinct elements give distinct colors. -/
theorem DecodeInts_color_verbatim (colors : Int32List) (r : Region SkColor)
    (hroom : colors.num_elements ≤ r.length) (hrange : colors.InRange) :
    ∃ r', DecodeInts toSkColor colors (some r) = .ok (some r') ∧
      r'.length = r.length ∧
      (∀ (k : Nat) (v : Int), colors.elements[k]? = some v →
        r'[k]? = some (some (toSkColor v)) ∧
        ((toSkColor v : Nat) : Int) = v % 4294967296 ∧
        (0 ≤ v → ((toSkColor v : Nat) : Int) = v) ∧
        (v < 0 → ((toSkColor v : Nat) : Int) = v + 4294967296)) ∧
      (∀ v w : Int, v ∈ colors.elements → w ∈ colors.elements →
        toSkColor v = toSkColor w → v = w) := by
  obtain ⟨r', hrun, hlen, hget⟩ := DecodeInts_spec toSkColor colors r hroom
  refine ⟨r', hrun, hlen, ?_, ?_⟩
  · intro k v hv
    have hk : k < colors.num_elements := by
      rw [← colors.length_elements]
      exact (List.getElem?_eq_some.mp hv).1
    obtain ⟨hlo, hhi⟩ := hrange v (List.getElem?_mem hv)
    have hcast := toSkColor_cast v
    refine ⟨?_, hcast, ?_, ?_⟩
    · rw [hget k, if_pos hk, hv]
      rfl
    · intro h0
      omega
    · intro h0
      omega
  · intro v w hv hw hvw
    obtain ⟨hv0, hv1⟩ := hrange v hv
    obtain ⟨hw0, hw1⟩ := hrange w hw
    have h1 := toSkColor_cast v
    have h2 := toSkColor_cast w
    rw [hvw] at h1
    omega

/-- The colors `0xFF0000FF` (as the negative `int32_t` `-16776961`), `255` and
`-1` are stored as `4278190335`, `255` and `4294967295`. -/
theorem DecodeInts_color_verbatim_witness :
    ((TypedList.mk (some [(-16776961 : Int), 255, -1])).num_elements
        ≤ [(none : Option SkColor), none, none].length ∧
      Int32List.InRange (TypedList.mk (some [(-16776961 : Int), 255, -1]))) ∧
    (∃ r', DecodeInts toSkColor (TypedList.mk (some [(-16776961 : Int), 255, -1]))
        (some [none, none, none]) = .ok (some r') ∧
      r'.length = [(none : Option SkColor), none, none].length ∧
      (∀ (k : Nat) (v : Int),
        (TypedList.mk (some [(-16776961 : Int), 255, -1])).elements[k]? = some v →
        r'[k]? = some (some (toSkColor v)) ∧
        ((toSkColor v : Nat) : Int) = v % 4294967296 ∧
        (0 ≤ v → ((toSkColor v : Nat) : Int) = v) ∧
        (v < 0 → ((toSkColor v : Nat) : Int) = v + 4294967296)) ∧
      (∀ v w : Int, v ∈ (TypedList.mk (some [(-16776961 : Int), 255, -1])).elements →
        w ∈ (TypedList.mk (some [(-16776961 : Int), 255, -1])).elements →
        toSkColor v = toSkColor w → v = w)) ∧
    DecodeInts toSkColor (TypedList.mk (some [(-16776961 : Int), 255, -1]))
        (some [none, none, none])
      = .ok (some [some 4278190335, some 255, some 4294967295]) :=
  ⟨⟨by decide, by decide⟩,
    DecodeInts_color_verbatim (TypedList.mk (some [(-16776961 : Int), 255, -1]))
      [none, none, none] (by decide) (by decide),
    by
      simp [DecodeInts, DecodeInts.loop, TypedList.num_elements, TypedList.load, Ptr.store,
        bind, Except.bind]
      decide⟩

/-- Claim C10. When positions have even length, texture coordinates are empty
or of even length no more than the positions, and colors are empty or no more
than the vertices, no load or store of `Vertices::init` is out of range: each
of the decoder calls on the builder arrays ends without a fault, and so does
the whole call. -/
theorem init_in_bounds (self : Vertices F) (mode : VertexMode)
    (positions tex : Float32List F) (colors indices : Int32List)
    (hp : positions.num_elements % 2 = 0)
    (ht : tex.num_elements = 0 ∨
      (tex.num_elements % 2 = 0 ∧ tex.num_elements ≤ positions.num_elements))
    (hc : colors.num_elements = 0 ∨ colors.num_elements ≤ positions.num_elements / 2) :
    (∃ p, DecodePoints positions
      (Vertices.init.builder mode positions tex colors indices).positions = .ok p) ∧
    (tex.data = true → ∃ p, DecodePoints tex
      (Vertices.init.builder mode positions tex colors indices).texCoords = .ok p) ∧
    (colors.data = true → ∃ p, DecodeInts toSkColor colors
      (Vertices.init.builder mode positions tex colors indices).colors = .ok p) ∧
    (∃ p, DecodeInts toUInt16 indices
      (Vertices.init.builder mode positions tex colors indices).indices = .ok p) ∧
    ∃ m, Vertices.init self mode positions tex colors indices = .ok ⟨some m⟩ := by
  have ht1 : tex.num_elements % 2 = 0 := by omega
  have ht2 : tex.num_elements ≤ positions.num_elements := by omega
  have hc1 : colors.num_elements ≤ positions.num_elements / 2 := by omega
  refine ⟨?_, ?_, ?_, ?_, ?_⟩
  · obtain ⟨r', hrun, -⟩ :=
      DecodePoints_spec positions (List.replicate (positions.num_elements / 2) none) hp
        (by simp)
    exact ⟨_, hrun⟩
  · intro hd
    obtain ⟨r', hrun, -⟩ :=
      DecodePoints_spec tex (List.replicate (positions.num_elements / 2) none) ht1
        (by simp; omega)
    refine ⟨some r', ?_⟩
    simp only [Vertices.init.builder, SkVertices.Builder.new, SkVertices.Builder.texCoords,
      Vertices.init.builderFlags_tex, hd]
    simpa using hrun
  · intro hd
    obtain ⟨r', hrun, -⟩ :=
      DecodeInts_spec toSkColor colors (List.replicate (positions.num_elements / 2) none)
        (by simpa using hc1)
    refine ⟨some r', ?_⟩
    simp only [Vertices.init.builder, SkVertices.Builder.new, SkVertices.Builder.colors,
      Vertices.init.builderFlags_colors, hd]
    simpa using hrun
  · obtain ⟨r', hrun, -⟩ :=
      DecodeInts_spec toUInt16 indices (List.replicate indices.num_elements none) (by simp)
    exact ⟨_, hrun⟩
  · obtain ⟨P, T, C, I, hrun, -⟩ :=
      Vertices.init_ok self mode positions tex colors indices hp ht1 ht2 hc1
    exact ⟨_, hrun⟩

/-- Three vertices with three texture coordinates, two colors and four
indices: the call ends without a fault. -/
theorem init_in_bounds_witness :
    ((TypedList.mk (some [(0 : Int), 0, 1, 0, 0, 1])).num_elements % 2 = 0 ∧
      ((TypedList.mk (some [(5 : Int), 5, 6, 6, 7, 7])).num_elements = 0 ∨
        ((TypedList.mk (some [(5 : Int), 5, 6, 6, 7, 7])).num_elements % 2 = 0 ∧
          (TypedList.mk (some [(5 : Int), 5, 6, 6, 7, 7])).num_elements
            ≤ (TypedList.mk (some [(0 : Int), 0, 1, 0, 0, 1])).num_elements)) ∧
      ((TypedList.mk (some [(-1 : Int), 255])).num_elements = 0 ∨
        (TypedList.mk (some [(-1 : Int), 255])).num_elements
          ≤ (TypedList.mk (some [(0 : Int), 0, 1, 0, 0, 1])).num_elements / 2)) ∧
    ∃ m, Vertices.init Vertices.Create VertexMode.kTriangleFan
      (TypedList.mk (some [(0 : Int), 0, 1, 0, 0, 1]))
      (TypedList.mk (some [(5 : Int), 5, 6, 6, 7, 7]))
      (TypedList.mk (some [(-1 : Int), 255])) (TypedList.mk (some [0, 1, 2, 0])) = .ok ⟨some m⟩ :=
  ⟨⟨by decide, by decide, by decide⟩,
    (init_in_bounds Vertices.Create VertexMode.kTriangleFan
      (TypedList.mk (some [(0 : Int), 0, 1, 0, 0, 1]))
      (TypedList.mk (some [(5 : Int), 5, 6, 6, 7, 7]))
      (TypedList.mk (some [(-1 : Int), 255])) (TypedList.mk (some [0, 1, 2, 0]))
      (by decide) (by decide) (by decide)).2.2.2.2⟩

/-- Claim C5, amended. The include-texture-coords flag is set exactly when the
texture-coordinate buffer is present (non-null data pointer), whatever its
length and whatever the colors are. When the buffers fit, the call builds a
mesh that has texture coordinates exactly when that buffer is present: an
absent buffer gives a mesh with no texture-coordinate array; a present one
gives an array of vertex-count cells in which the cells past the pairs of the
buffer are unwritten, all of them when the buffer has no element. -/
theorem init_texcoords_flag (self : Vertices F) (mode : VertexMode)
    (positions tex : Float32List F) (colors indices : Int32List)
    (hp : positions.num_elements % 2 = 0)
    (ht : tex.num_elements % 2 = 0) (htp : tex.num_elements ≤ positions.num_elements)
    (hc : colors.num_elements ≤ positions.num_elements / 2) :
    ((Vertices.init.builderFlags tex colors &&& kHasTexCoords_BuilderFlag ≠ 0)
      ↔ tex.data = true) ∧
    ∃ m, Vertices.init self mode positions tex colors indices = .ok ⟨some m⟩ ∧
      m.hasTexCoords = tex.data ∧
      (tex.data = false → m.fTexs = none) ∧
      (tex.data = true → ∃ Tr, m.fTexs = some Tr ∧ Tr.length = positions.num_elements / 2 ∧
        ∀ k, tex.num_elements / 2 ≤ k → k < positions.num_elements / 2 → Tr[k]? = some none) := by
  refine ⟨Vertices.init.builderFlags_tex tex colors, ?_⟩
  obtain ⟨P, T, C, I, hrun, -, -, hT0, hT1, -⟩ :=
    Vertices.init_ok self mode positions tex colors indices hp ht htp hc
  refine ⟨_, hrun, ?_, hT0, ?_⟩
  · cases hd : tex.data
    · simp [SkVertices.hasTexCoords, hT0 hd]
    · obtain ⟨Tr, hTr, -⟩ := hT1 hd
      simp [SkVertices.hasTexCoords, hTr]
  · intro hd
    obtain ⟨Tr, hTr, hlen, hget⟩ := hT1 hd
    refine ⟨Tr, hTr, hlen, ?_⟩
    intro k hk1 hk2
    rw [hget k, if_neg (by omega), if_pos hk2]

/-- An absent texture-coordinate buffer: the flag is unset and the mesh has no
texture coordinates. -/
theorem init_texcoords_flag_witness :
    ((TypedList.mk (some [(0 : Int), 0, 1, 0, 0, 1])).num_elements % 2 = 0 ∧
      (TypedList.mk (none : Option (List Int))).num_elements % 2 = 0) ∧
    ¬ (Vertices.init.builderFlags (TypedList.mk (none : Option (List Int)))
        (TypedList.mk (some [-1, -1, -1])) &&& kHasTexCoords_BuilderFlag ≠ 0) ∧
    ∃ m, Vertices.init Vertices.Create VertexMode.kTriangles
        (TypedList.mk (some [(0 : Int), 0, 1, 0, 0, 1])) (TypedList.mk none)
        (TypedList.mk (some [-1, -1, -1])) (TypedList.mk (some [0, 1, 2])) = .ok ⟨some m⟩ ∧
      m.hasTexCoords = false :=
  ⟨⟨by decide, by decide⟩,
    fun h => absurd ((init_texcoords_flag Vertices.Create VertexMode.kTriangles
      (TypedList.mk (some [(0 : Int), 0, 1, 0, 0, 1])) (TypedList.mk none)
      (TypedList.mk (some [-1, -1, -1])) (TypedList.mk (some [0, 1, 2]))
      (by decide) (by decide) (by decide) (by decide)).1.mp h) (by decide),
    (init_texcoords_flag Vertices.Create VertexMode.kTriangles
      (TypedList.mk (some [(0 : Int), 0, 1, 0, 0, 1])) (TypedList.mk none)
      (TypedList.mk (some [-1, -1, -1])) (TypedList.mk (some [0, 1, 2]))
      (by decide) (by decide) (by decide) (by decide)).2.imp
      (fun _ h => ⟨h.1, h.2.1⟩)⟩

/-- Claim C5 as stated fails: a texture-coordinate buffer that is present and
has no element is empty, yet the flag is set and the mesh built over three
vertices has a texture-coordinate array, of three unwritten cells. -/
theorem init_texcoords_flag_empty_present :
    (TypedList.mk (some ([] : List Int))).num_elements = 0 ∧
    ¬ ((Vertices.init.builderFlags (TypedList.mk (some ([] : List Int))) (TypedList.mk none)
          &&& kHasTexCoords_BuilderFlag ≠ 0)
        ↔ 0 < (TypedList.mk (some ([] : List Int))).num_elements) ∧
    Vertices.init Vertices.Create VertexMode.kTriangles
        (TypedList.mk (some [(0 : Int), 0, 1, 0, 0, 1])) (TypedList.mk (some []))
        (TypedList.mk none) (TypedList.mk none)
      = .ok ⟨some ⟨VertexMode.kTriangles, 3, 0,
          some [some ⟨0, 0⟩, some ⟨1, 0⟩, some ⟨0, 1⟩], some [none, none, none], none,
          some []⟩⟩ ∧
    SkVertices.hasTexCoords (⟨VertexMode.kTriangles, 3, 0,
        some [some ⟨0, 0⟩, some ⟨1, 0⟩, some ⟨0, 1⟩], some [none, none, none], none,
        some []⟩ : SkVertices Int) = true := by
  refine ⟨by decide, by decide, ?_, by decide⟩
  simp [Vertices.init, Vertices.init.builder, Vertices.init.builderFlags,
    SkVertices.Builder.new, SkVertices.Builder.positions, SkVertices.Builder.texCoords,
    SkVertices.Builder.indices, SkVertices.Builder.detach, Vertices.Create, DecodePoints,
    DecodePoints.loop, DecodeInts, DecodeInts.loop, TypedList.data, TypedList.num_elements,
    TypedList.load, Ptr.store, SkPoint.Make, kHasTexCoords_BuilderFlag,
    kHasColors_BuilderFlag, bind, Except.bind, pure, Except.pure, List.replicate]

/-- Claim C6, amended. The include-colors flag is set exactly when the color
buffer is present (non-null data pointer), whatever its length; the color bit
does not depend on the texture-coordinate buffer, nor the texture-coordinate
bit on the color buffer. When the buffers fit, the call builds a mesh that has
colors exactly when the color buffer is present: an absent buffer gives a mesh
with no color array; a present one gives an array of vertex-count cells in
which the cells past the elements of the buffer are unwritten. -/
theorem init_colors_flag (self : Vertices F) (mode : VertexMode)
    (positions tex : Float32List F) (colors indices : Int32List)
    (hp : positions.num_elements % 2 = 0)
    (ht : tex.num_elements % 2 = 0) (htp : tex.num_elements ≤ positions.num_elements)
    (hc : colors.num_elements ≤ positions.num_elements / 2) :
    ((Vertices.init.builderFlags tex colors &&& kHasColors_BuilderFlag ≠ 0)
      ↔ colors.data = true) ∧
    (∀ tex' : Float32List F,
      Vertices.init.builderFlags tex' colors &&& kHasColors_BuilderFlag
        = Vertices.init.builderFlags tex colors &&& kHasColors_BuilderFlag) ∧
    (∀ colors' : Int32List,
      Vertices.init.builderFlags tex colors' &&& kHasTexCoords_BuilderFlag
        = Vertices.init.builderFlags tex colors &&& kHasTexCoords_BuilderFlag) ∧
    ∃ m, Vertices.init self mode positions tex colors indices = .ok ⟨some m⟩ ∧
      m.hasColors = colors.data ∧
      (colors.data = false → m.fColors = none) ∧
      (colors.data = true → ∃ Cr, m.fColors = some Cr ∧
        Cr.length = positions.num_elements / 2 ∧
        ∀ k, colors.num_elements ≤ k → k < positions.num_elements / 2 → Cr[k]? = some none) := by
  refine ⟨Vertices.init.builderFlags_colors tex colors, ?_, ?_, ?_⟩
  · intro tex'
    cases h1 : tex'.data <;> cases h2 : tex.data <;> cases h3 : colors.data <;>
      simp only [Vertices.init.builderFlags, h1, h2, h3, kHasTexCoords_BuilderFlag,
        kHasColors_BuilderFlag] <;> decide
  · intro colors'
    cases h1 : colors'.data <;> cases h2 : tex.data <;> cases h3 : colors.data <;>
      simp only [Vertices.init.builderFlags, h1, h2, h3, kHasTexCoords_BuilderFlag,
        kHasColors_BuilderFlag] <;> decide
  · obtain ⟨P, T, C, I, hrun, -, -, -, -, hC0, hC1, -⟩ :=
      Vertices.init_ok self mode positions tex colors indices hp ht htp hc
    refine ⟨_, hrun, ?_, hC0, ?_⟩
    · cases hd : colors.data
      · simp [SkVertices.hasColors, hC0 hd]
      · obtain ⟨Cr, hCr, -⟩ := hC1 hd
        simp [SkVertices.hasColors, hCr]
    · intro hd
      obtain ⟨Cr, hCr, hlen, hget⟩ := hC1 hd
      refine ⟨Cr, hCr, hlen, ?_⟩
      intro k hk1 hk2
      rw [hget k, if_neg (by omega), if_pos hk2]

/-- An absent color buffer next to present texture coordinates: the color flag
is unset and the mesh has no colors. -/
theorem init_colors_flag_witness :
    ((TypedList.mk (some [(0 : Int), 0, 1, 0, 0, 1])).num_elements % 2 = 0 ∧
      (TypedList.mk (none : Option (List Int))).num_elements
        ≤ (TypedList.mk (some [(0 : Int), 0, 1, 0, 0, 1])).num_elements / 2) ∧
    ¬ (Vertices.init.builderFlags (TypedList.mk (some [(5 : Int), 5, 6, 6, 7, 7]))
        (TypedList.mk none) &&& kHasColors_BuilderFlag ≠ 0) ∧
    ∃ m, Vertices.init Vertices.Create VertexMode.kTriangles
        (TypedList.mk (some [(0 : Int), 0, 1, 0, 0, 1]))
        (TypedList.mk (some [(5 : Int), 5, 6, 6, 7, 7]))
        (TypedList.mk none) (TypedList.mk (some [0, 1, 2])) = .ok ⟨some m⟩ ∧
      m.hasColors = false :=
  ⟨⟨by decide, by decide⟩,
    fun h => absurd ((init_colors_flag Vertices.Create VertexMode.kTriangles
      (TypedList.mk (some [(0 : Int), 0, 1, 0, 0, 1]))
      (TypedList.mk (some [(5 : Int), 5, 6, 6, 7, 7]))
      (TypedList.mk none) (TypedList.mk (some [0, 1, 2]))
      (by decide) (by decide) (by decide) (by decide)).1.mp h) (by decide),
    (init_colors_flag Vertices.Create VertexMode.kTriangles
      (TypedList.mk (some [(0 : Int), 0, 1, 0, 0, 1]))
      (TypedList.mk (some [(5 : Int), 5, 6, 6, 7, 7]))
      (TypedList.mk none) (TypedList.mk (some [0, 1, 2]))
      (by decide) (by decide) (by decide) (by decide)).2.2.2.imp
      (fun _ h => ⟨h.1, h.2.1⟩)⟩

/-- Claim C6 as stated fails: a color buffer that is present and has no element
is empty, yet the color flag is set and the mesh built over three vertices has
a color array, of three unwritten cells. -/
theorem init_colors_flag_empty_present :
    (TypedList.mk (some ([] : List Int))).num_elements = 0 ∧
    ¬ ((Vertices.init.builderFlags (TypedList.mk (none : Option (List Int)))
          (TypedList.mk (some [])) &&& kHasColors_BuilderFlag ≠ 0)
        ↔ 0 < (TypedList.mk (some ([] : List Int))).num_elements) ∧
    Vertices.init Vertices.Create VertexMode.kTriangles
        (TypedList.mk (some [(0 : Int), 0, 1, 0, 0, 1])) (TypedList.mk none)
        (TypedList.mk (some [])) (TypedList.mk none)
      = .ok ⟨some ⟨VertexMode.kTriangles, 3, 0,
          some [some ⟨0, 0⟩, some ⟨1, 0⟩, some ⟨0, 1⟩], none, some [none, none, none],
          some []⟩⟩ ∧
    SkVertices.hasColors (⟨VertexMode.kTriangles, 3, 0,
        some [some ⟨0, 0⟩, some ⟨1, 0⟩, some ⟨0, 1⟩], none, some [none, none, none],
        some []⟩ : SkVertices Int) = true := by
  refine ⟨by decide, by decide, ?_, by decide⟩
  simp [Vertices.init, Vertices.init.builder, Vertices.init.builderFlags,
    SkVertices.Builder.new, SkVertices.Builder.positions, SkVertices.Builder.colors,
    SkVertices.Builder.indices, SkVertices.Builder.detach, Vertices.Create, DecodePoints,
    DecodePoints.loop, DecodeInts, DecodeInts.loop, TypedList.data, TypedList.num_elements,
    TypedList.load, Ptr.store, SkPoint.Make, kHasTexCoords_BuilderFlag,
    kHasColors_BuilderFlag, bind, Except.bind, pure, Except.pure, List.replicate]

/-- Claim C8, amended. For a position buffer of odd length `n`, the builder is
sized with `n / 2` vertices, rounded down, and decoding the buffer without its
last element fills the positions array with the consecutive pairs; on the
whole buffer the iteration that starts at the unpaired last element loads
index `n`, past the end of the buffer: `DecodePoints` and `Vertices::init` end
there with a fault and no mesh is built, whatever the other buffers are. -/
theorem init_odd_positions (self : Vertices F) (mode : VertexMode)
    (positions tex : Float32List F) (colors indices : Int32List)
    (hodd : positions.num_elements % 2 = 1) :
    (Vertices.init.builder mode positions tex colors indices).vertexCount
      = positions.num_elements / 2 ∧
    (Vertices.init.builder mode positions tex colors indices).positions
      = some (List.replicate (positions.num_elements / 2) none) ∧
    (∃ r', DecodePoints (TypedList.mk (some (positions.elements.take (positions.num_elements - 1))))
        (Vertices.init.builder mode positions tex colors indices).positions = .ok (some r') ∧
      r'.length = positions.num_elements / 2 ∧
      ∀ k, k < positions.num_elements / 2 → ∃ x y,
        positions.elements[2 * k]? = some x ∧ positions.elements[2 * k + 1]? = some y ∧
        r'[k]? = some (some (SkPoint.Make x y))) ∧
    DecodePoints positions (Vertices.init.builder mode positions tex colors indices).positions
      = .error (.loadOutOfRange positions.num_elements) ∧
    Vertices.init self mode positions tex colors indices
      = .error (.loadOutOfRange positions.num_elements) := by
  have hfault := DecodePoints_odd positions (List.replicate (positions.num_elements / 2) none)
    hodd (by simp)
  have hlen := positions.length_elements
  refine ⟨rfl, rfl, ?_, hfault, ?_⟩
  · have hn : (TypedList.mk (some (positions.elements.take (positions.num_elements - 1)))).num_elements
        = positions.num_elements - 1 := by
      simp [TypedList.num_elements, hlen]
    obtain ⟨r', hrun, hl, hget⟩ :=
      DecodePoints_spec (TypedList.mk (some (positions.elements.take (positions.num_elements - 1))))
        (List.replicate (positions.num_elements / 2) none) (by rw [hn]; omega)
        (by rw [hn]; simp; omega)
    refine ⟨r', hrun, by simpa using hl, ?_⟩
    intro k hk
    have h1 : 2 * k + 1 < positions.num_elements - 1 := by omega
    obtain ⟨x, y, hx, hy, hxy⟩ :=
      pairAt_exists (positions.elements.take (positions.num_elements - 1)) k
        (by simp [hlen]; omega)
    refine ⟨x, y, ?_, ?_, ?_⟩
    · rw [← hx, List.getElem?_take_of_lt (by omega)]
    · rw [← hy, List.getElem?_take_of_lt h1]
    · rw [hget k, hn, if_pos (by omega)]
      exact congrArg some hxy
  · rcases positions with ⟨_ | ps⟩
    · simp [TypedList.num_elements] at hodd
    · simp only [Vertices.init, Vertices.init.builder, SkVertices.Builder.new,
        SkVertices.Builder.positions, TypedList.data, Option.isSome_some, if_true]
      simp only [bind, Except.bind]
      rw [hfault]

/-- Three coordinates: the builder is sized with one vertex and the call ends
with the load of index `3`. -/
theorem init_odd_positions_witness :
    (TypedList.mk (some [(0 : Int), 0, 1])).num_elements % 2 = 1 ∧
    (Vertices.init.builder VertexMode.kTriangles (TypedList.mk (some [(0 : Int), 0, 1]))
      (TypedList.mk none) (TypedList.mk none) (TypedList.mk none)).vertexCount = 1 ∧
    Vertices.init Vertices.Create VertexMode.kTriangles (TypedList.mk (some [(0 : Int), 0, 1]))
      (TypedList.mk none) (TypedList.mk none) (TypedList.mk none)
      = .error (.loadOutOfRange 3) :=
  ⟨by decide,
    (init_odd_positions Vertices.Create VertexMode.kTriangles
      (TypedList.mk (some [(0 : Int), 0, 1])) (TypedList.mk none) (TypedList.mk none)
      (TypedList.mk none) (by decide)).1,
    (init_odd_positions Vertices.Create VertexMode.kTriangles
      (TypedList.mk (some [(0 : Int), 0, 1])) (TypedList.mk none) (TypedList.mk none)
      (TypedList.mk none) (by decide)).2.2.2.2⟩

/-- Claim C8 as stated fails: on the five coordinates `[0,0, 1,0, 5]`
`DecodePoints` does load the element at index `5`, one past the unpaired last
element, and `Vertices::init` ends there without a mesh. -/
theorem init_odd_positions_loads_past_end :
    (TypedList.mk (some [(0 : Int), 0, 1, 0, 5])).num_elements = 5 ∧
    DecodePoints (TypedList.mk (some [(0 : Int), 0, 1, 0, 5]))
        (Vertices.init.builder VertexMode.kTriangles (TypedList.mk (some [(0 : Int), 0, 1, 0, 5]))
          (TypedList.mk none) (TypedList.mk none) (TypedList.mk none)).positions
      = .error (.loadOutOfRange 5) ∧
    Vertices.init Vertices.Create VertexMode.kTriangles
        (TypedList.mk (some [(0 : Int), 0, 1, 0, 5]))
        (TypedList.mk none) (TypedList.mk none) (TypedList.mk none)
      = .error (.loadOutOfRange 5) := by
  refine ⟨by decide, ?_, ?_⟩ <;>
  simp [Vertices.init, Vertices.init.builder, Vertices.init.builderFlags,
    SkVertices.Builder.new, SkVertices.Builder.positions, SkVertices.Builder.indices,
    SkVertices.Builder.detach, Vertices.Create, DecodePoints, DecodePoints.loop,
    TypedList.data, TypedList.num_elements, TypedList.load, Ptr.store, SkPoint.Make,
    bind, Except.bind, pure, Except.pure, List.replicate]

theorem Vertices.init_self_irrelevant (self self' : Vertices F) (mode : VertexMode)
    (positions tex : Float32List F) (colors indices : Int32List) :
    Vertices.init self mode positions tex colors indices
      = Vertices.init self' mode positions tex colors indices := by
  simp only [Vertices.init]

theorem Vertices.initAll_append (self : Vertices F) (calls calls' : List (Vertices.InitArgs F)) :
    Vertices.initAll self (calls ++ calls')
      = (Vertices.initAll self calls).bind (fun v => Vertices.initAll v calls') := by
  induction calls generalizing self with
  | nil => rfl
  | cons a rest ih =>
    simp only [List.cons_append, Vertices.initAll, bind, Except.bind]
    cases Vertices.init self a.vertex_mode a.positions a.texture_coordinates a.colors a.indices with
    | error e => rfl
    | ok v => exact ih v

/-- The body of `Vertices::init` as one chain: the four decoder calls on the
arrays of the builder, then the mesh that holds their results. -/
theorem Vertices.init_chain (self : Vertices F) (mode : VertexMode)
    (positions tex : Float32List F) (colors indices : Int32List) :
    Vertices.init self mode positions tex colors indices
      = (DecodePoints positions
          (Vertices.init.builder mode positions tex colors indices).positions).bind (fun p =>
        (DecodePoints tex
          (Vertices.init.builder mode positions tex colors indices).texCoords).bind (fun t =>
        (DecodeInts toSkColor colors
          (Vertices.init.builder mode positions tex colors indices).colors).bind (fun c =>
        (DecodeInts toUInt16 indices
          (Vertices.init.builder mode positions tex colors indices).indices).bind (fun i =>
        .ok ⟨some ⟨mode, positions.num_elements / 2, indices.num_elements, p, t, c, i⟩⟩)))) := by
  have hflagT := Vertices.init.builderFlags_tex tex colors
  have hflagC := Vertices.init.builderFlags_colors tex colors
  simp only [Vertices.init, Vertices.init.builder, SkVertices.Builder.new,
    SkVertices.Builder.positions, SkVertices.Builder.texCoords, SkVertices.Builder.colors,
    SkVertices.Builder.indices, SkVertices.Builder.detach, hflagT, hflagC]
  rcases positions with ⟨_ | ps⟩ <;> rcases tex with ⟨_ | ts⟩ <;>
    rcases colors with ⟨_ | cs⟩ <;> rcases indices with ⟨_ | is⟩ <;>
    simp only [TypedList.data, Option.isSome_some, Option.isSome_none, if_true, if_false,
      Bool.false_eq_true, bind, Except.bind, pure, Except.pure, DecodePoints_absent,
      DecodeInts_absent, TypedList.num_elements]

/-- A call of `init` that completes leaves a mesh in the wrapper, and the mesh
is made of the arguments of the call. -/
theorem Vertices.init_ok_mesh (self : Vertices F) (mode : VertexMode)
    (positions tex : Float32List F) (colors indices : Int32List) (v : Vertices F)
    (h : Vertices.init self mode positions tex colors indices = .ok v) :
    ∃ m, v.vertices_ = some m ∧ m.fMode = mode ∧
      m.fVertexCnt = positions.num_elements / 2 ∧ m.fIndexCnt = indices.num_elements ∧
      DecodePoints positions (Vertices.init.builder mode positions tex colors indices).positions
        = .ok m.fPositions ∧
      DecodePoints tex (Vertices.init.builder mode positions tex colors indices).texCoords
        = .ok m.fTexs ∧
      DecodeInts toSkColor colors (Vertices.init.builder mode positions tex colors indices).colors
        = .ok m.fColors ∧
      DecodeInts toUInt16 indices (Vertices.init.builder mode positions tex colors indices).indices
        = .ok m.fIndices := by
  rw [Vertices.init_chain] at h
  cases hp : DecodePoints positions
      (Vertices.init.builder mode positions tex colors indices).positions with
  | error e => rw [hp] at h; cases h
  | ok p =>
    cases ht : DecodePoints tex
        (Vertices.init.builder mode positions tex colors indices).texCoords with
    | error e => rw [hp, ht] at h; cases h
    | ok t =>
      cases hc : DecodeInts toSkColor colors
          (Vertices.init.builder mode positions tex colors indices).colors with
      | error e => rw [hp, ht, hc] at h; cases h
      | ok c =>
        cases hi : DecodeInts toUInt16 indices
            (Vertices.init.builder mode positions tex colors indices).indices with
        | error e => rw [hp, ht, hc, hi] at h; cases h
        | ok i =>
          rw [hp, ht, hc, hi] at h
          simp only [Except.bind] at h
          cases h
          exact ⟨_, rfl, rfl, rfl, rfl, rfl, rfl, rfl, rfl⟩

/-- Claim C9, amended. A wrapper from `Create` holds no mesh. A call of `init`
completes whenever the buffers fit, and a call that completes leaves a mesh in
the wrapper, built from the arguments of that call alone: its mode, its
`positions.length / 2` vertices, its `indices.length` indices and the four
arrays that the decoders produce from its buffers; what the wrapper held
before plays no part. So a wrapper on which `init` is called once holds the
mesh of that call, a sequence of calls ends with the mesh of the last call,
and after two calls the mesh of the first is still held only when the second
call builds an equal one. -/
theorem init_replaces_mesh :
    (Vertices.Create : Vertices F).vertices_ = none ∧
    (∀ (self : Vertices F) (mode : VertexMode) (positions tex : Float32List F)
        (colors indices : Int32List),
      positions.num_elements % 2 = 0 → tex.num_elements % 2 = 0 →
      tex.num_elements ≤ positions.num_elements →
      colors.num_elements ≤ positions.num_elements / 2 →
      ∃ m, Vertices.init self mode positions tex colors indices = .ok ⟨some m⟩) ∧
    (∀ (self : Vertices F) (mode : VertexMode) (positions tex : Float32List F)
        (colors indices : Int32List) (v : Vertices F),
      Vertices.init self mode positions tex colors indices = .ok v →
      ∃ m, v.vertices_ = some m ∧ m.fMode = mode ∧
        m.fVertexCnt = positions.num_elements / 2 ∧ m.fIndexCnt = indices.num_elements ∧
        DecodePoints positions
          (Vertices.init.builder mode positions tex colors indices).positions
          = .ok m.fPositions ∧
        DecodePoints tex (Vertices.init.builder mode positions tex colors indices).texCoords
          = .ok m.fTexs ∧
        DecodeInts toSkColor colors
          (Vertices.init.builder mode positions tex colors indices).colors
          = .ok m.fColors ∧
        DecodeInts toUInt16 indices
          (Vertices.init.builder mode positions tex colors indices).indices
          = .ok m.fIndices) ∧
    (∀ (self self' : Vertices F) (mode : VertexMode) (positions tex : Float32List F)
        (colors indices : Int32List),
      Vertices.init self mode positions tex colors indices
        = Vertices.init self' mode positions tex colors indices) ∧
    (∀ (self : Vertices F) (a : Vertices.InitArgs F),
      Vertices.initAll self [a]
        = Vertices.init Vertices.Create a.vertex_mode a.positions a.texture_coordinates
            a.colors a.indices) ∧
    (∀ (self : Vertices F) (calls : List (Vertices.InitArgs F)) (last : Vertices.InitArgs F),
      Vertices.initAll self (calls ++ [last])
        = (Vertices.initAll self calls).bind (fun _ =>
            Vertices.init Vertices.Create last.vertex_mode last.positions
              last.texture_coordinates last.colors last.indices)) ∧
    (∀ (a b : Vertices.InitArgs F) (va vb : Vertices F),
      Vertices.init Vertices.Create a.vertex_mode a.positions a.texture_coordinates
        a.colors a.indices = .ok va →
      Vertices.init Vertices.Create b.vertex_mode b.positions b.texture_coordinates
        b.colors b.indices = .ok vb →
      Vertices.initAll Vertices.Create [a, b] = .ok vb ∧
      (Vertices.initAll Vertices.Create [a, b] = .ok va ↔ va.vertices_ = vb.vertices_)) := by
  have hlast : ∀ (self : Vertices F) (calls : List (Vertices.InitArgs F))
      (last : Vertices.InitArgs F),
      Vertices.initAll self (calls ++ [last])
        = (Vertices.initAll self calls).bind (fun _ =>
            Vertices.init Vertices.Create last.vertex_mode last.positions
              last.texture_coordinates last.colors last.indices) := by
    intro self calls last
    rw [Vertices.initAll_append]
    cases Vertices.initAll self calls with
    | error e => rfl
    | ok v =>
      simp only [Except.bind, Vertices.initAll, bind]
      rw [Vertices.init_self_irrelevant v Vertices.Create]
      cases Vertices.init Vertices.Create last.vertex_mode last.positions
        last.texture_coordinates last.colors last.indices <;> rfl
  refine ⟨rfl, ?_, Vertices.init_ok_mesh, Vertices.init_self_irrelevant, ?_, hlast, ?_⟩
  · intro self mode positions tex colors indices hp ht htp hc
    obtain ⟨P, T, C, I, hrun, -⟩ :=
      Vertices.init_ok self mode positions tex colors indices hp ht htp hc
    exact ⟨_, hrun⟩
  · intro self a
    have := hlast self [] a
    simpa [Vertices.initAll, Except.bind] using this
  · intro a b va vb ha hb
    have hab : Vertices.initAll Vertices.Create [a, b] = .ok vb := by
      have := hlast Vertices.Create [a] b
      simp only [List.singleton_append] at this
      rw [this]
      have h1 := hlast Vertices.Create [] a
      simp only [List.nil_append, Vertices.initAll, Except.bind] at h1
      have h1' : Vertices.initAll Vertices.Create [a] = .ok va := by
        rw [← ha]
        simpa [Vertices.initAll, Except.bind] using h1
      rw [h1', hb]
      rfl
    refine ⟨hab, ?_⟩
    rw [hab]
    constructor
    · intro h
      cases h
      rfl
    · intro h
      rcases va with ⟨x⟩
      rcases vb with ⟨y⟩
      simp only at h
      rw [h]

/-- Two calls on one wrapper: the second call completes, the wrapper then
holds the mesh of the second call, and no longer the mesh of the first. -/
theorem init_replaces_mesh_witness :
    (∃ m, Vertices.init Vertices.Create VertexMode.kTriangles
        (TypedList.mk (some [(0 : Int), 0, 2, 0, 0, 2])) (TypedList.mk none) (TypedList.mk none)
        (TypedList.mk none) = .ok ⟨some m⟩) ∧
    Vertices.initAll Vertices.Create
        [⟨VertexMode.kTriangles, TypedList.mk (some [(0 : Int), 0, 1, 0, 0, 1]), TypedList.mk none,
            TypedList.mk none, TypedList.mk none⟩,
          ⟨VertexMode.kTriangles, TypedList.mk (some [(0 : Int), 0, 2, 0, 0, 2]), TypedList.mk none,
            TypedList.mk none, TypedList.mk none⟩]
      = .ok ⟨some ⟨VertexMode.kTriangles, 3, 0,
          some [some ⟨0, 0⟩, some ⟨2, 0⟩, some ⟨0, 2⟩], none, none, some []⟩⟩ ∧
    ¬ Vertices.initAll Vertices.Create
        [⟨VertexMode.kTriangles, TypedList.mk (some [(0 : Int), 0, 1, 0, 0, 1]), TypedList.mk none,
            TypedList.mk none, TypedList.mk none⟩,
          ⟨VertexMode.kTriangles, TypedList.mk (some [(0 : Int), 0, 2, 0, 0, 2]), TypedList.mk none,
            TypedList.mk none, TypedList.mk none⟩]
      = .ok ⟨some ⟨VertexMode.kTriangles, 3, 0,
          some [some ⟨0, 0⟩, some ⟨1, 0⟩, some ⟨0, 1⟩], none, none, some []⟩⟩ := by
  have hA : Vertices.init Vertices.Create VertexMode.kTriangles
      (TypedList.mk (some [(0 : Int), 0, 1, 0, 0, 1])) (TypedList.mk none) (TypedList.mk none)
      (TypedList.mk none)
      = .ok ⟨some ⟨VertexMode.kTriangles, 3, 0,
          some [some ⟨0, 0⟩, some ⟨1, 0⟩, some ⟨0, 1⟩], none, none, some []⟩⟩ := by
    simp [Vertices.init, Vertices.init.builder, Vertices.init.builderFlags,
      SkVertices.Builder.new, SkVertices.Builder.positions, SkVertices.Builder.indices,
      SkVertices.Builder.detach, Vertices.Create, DecodePoints, DecodePoints.loop,
      TypedList.data, TypedList.num_elements, TypedList.load, Ptr.store, SkPoint.Make,
      bind, Except.bind, pure, Except.pure, List.replicate]
  have hB : Vertices.init Vertices.Create VertexMode.kTriangles
      (TypedList.mk (some [(0 : Int), 0, 2, 0, 0, 2])) (TypedList.mk none) (TypedList.mk none)
      (TypedList.mk none)
      = .ok ⟨some ⟨VertexMode.kTriangles, 3, 0,
          some [some ⟨0, 0⟩, some ⟨2, 0⟩, some ⟨0, 2⟩], none, none, some []⟩⟩ := by
    simp [Vertices.init, Vertices.init.builder, Vertices.init.builderFlags,
      SkVertices.Builder.new, SkVertices.Builder.positions, SkVertices.Builder.indices,
      SkVertices.Builder.detach, Vertices.Create, DecodePoints, DecodePoints.loop,
      TypedList.data, TypedList.num_elements, TypedList.load, Ptr.store, SkPoint.Make,
      bind, Except.bind, pure, Except.pure, List.replicate]
  have hrep := (@init_replaces_mesh Int).2.2.2.2.2.2
    ⟨VertexMode.kTriangles, TypedList.mk (some [(0 : Int), 0, 1, 0, 0, 1]), TypedList.mk none,
      TypedList.mk none, TypedList.mk none⟩
    ⟨VertexMode.kTriangles, TypedList.mk (some [(0 : Int), 0, 2, 0, 0, 2]), TypedList.mk none,
      TypedList.mk none, TypedList.mk none⟩ _ _ hA hB
  refine ⟨(@init_replaces_mesh Int).2.1 Vertices.Create VertexMode.kTriangles
      (TypedList.mk (some [(0 : Int), 0, 2, 0, 0, 2])) (TypedList.mk none) (TypedList.mk none)
      (TypedList.mk none) (by decide) (by decide) (by decide) (by decide), hrep.1, ?_⟩
  intro h
  have := hrep.2.mp h
  revert this
  decide

/-- Claim C9 as stated fails: after `Create` and an `init` with the positions
`[0,0, 1,0, 0,1]` the wrapper holds a mesh, and a second `init` with the
positions `[0,0, 2,0, 0,2]` replaces it with another one. -/
theorem init_twice_replaces :
    Vertices.init Vertices.Create VertexMode.kTriangles
        (TypedList.mk (some [(0 : Int), 0, 1, 0, 0, 1]))
        (TypedList.mk none) (TypedList.mk none) (TypedList.mk none)
      = .ok ⟨some ⟨VertexMode.kTriangles, 3, 0,
          some [some ⟨0, 0⟩, some ⟨1, 0⟩, some ⟨0, 1⟩], none, none, some []⟩⟩ ∧
    Vertices.init
        (⟨some ⟨VertexMode.kTriangles, 3, 0,
          some [some ⟨0, 0⟩, some ⟨1, 0⟩, some ⟨0, 1⟩], none, none, some []⟩⟩ : Vertices Int)
        VertexMode.kTriangles (TypedList.mk (some [(0 : Int), 0, 2, 0, 0, 2]))
        (TypedList.mk none) (TypedList.mk none) (TypedList.mk none)
      = .ok ⟨some ⟨VertexMode.kTriangles, 3, 0,
          some [some ⟨0, 0⟩, some ⟨2, 0⟩, some ⟨0, 2⟩], none, none, some []⟩⟩ ∧
    (⟨some ⟨VertexMode.kTriangles, 3, 0,
        some [some ⟨0, 0⟩, some ⟨2, 0⟩, some ⟨0, 2⟩], none, none, some []⟩⟩ : Vertices Int)
      ≠ ⟨some ⟨VertexMode.kTriangles, 3, 0,
        some [some ⟨0, 0⟩, some ⟨1, 0⟩, some ⟨0, 1⟩], none, none, some []⟩⟩ := by
  refine ⟨?_, ?_, by decide⟩ <;>
  simp [Vertices.init, Vertices.init.builder, Vertices.init.builderFlags,
    SkVertices.Builder.new, SkVertices.Builder.positions, SkVertices.Builder.indices,
    SkVertices.Builder.detach, Vertices.Create, DecodePoints, DecodePoints.loop,
    TypedList.data, TypedList.num_elements, TypedList.load, Ptr.store, SkPoint.Make,
    bind, Except.bind, pure, Except.pure, List.replicate]

end Claims

end blink
